import Mathlib

/-!
# Verification of the rpg-mcp world-state kernel

A shallow embedding of the parts of the rpg-mcp engine that the checked
properties concern:

* the arcane-synthesis DC computation and outcome classification
  (src/server/consolidated/improvisation-manage.ts, handleSynthesize);
* the advance_durations schema and handler
  (src/server/consolidated/improvisation-manage.ts);
* the inventory repository (src/storage/repos/inventory.repo.ts);
* the theft/fence handlers (src/server/consolidated/theft-manage.ts);
* the combat tool handlers (src/server/combat-tools.ts).

SQLite tables are modelled as association lists, the session-scoped
combat-manager cache as an association list keyed by the namespaced id,
and every handler as a pure function from the relevant state to the new
state paired with its result.  Repository code that is not part of the
source tree (theft.repo.ts, custom-effects.repo.ts, character.repo.ts,
the combat engine) is modelled from the specification; each such
definition is marked.
-/

namespace RpgMcp

/-! ## String helpers

JavaScript String.prototype.includes / String.prototype.toLowerCase over
the character list of a string. -/

/-- Does the character list start with the given needle? -/
def charsStartWith : List Char → List Char → Bool
  | _, [] => true
  | [], _ :: _ => false
  | c :: cs, d :: ds => c == d && charsStartWith cs ds

/-- JavaScript s.includes(t) on character lists. -/
def charsInclude : List Char → List Char → Bool
  | hay, needle =>
    if charsStartWith hay needle then true
    else
      match hay with
      | [] => false
      | _ :: t => charsInclude t needle

/-- JavaScript s.toLowerCase() for the ASCII strings the engine compares. -/
def lowerChars (s : String) : List Char := s.data.map Char.toLower

/-- JavaScript s.toLowerCase().includes(t) where t is already lowercase. -/
def lowerIncludes (s : String) (t : String) : Bool :=
  charsInclude (lowerChars s) t.data

/-! ## Arcane synthesis (improvisation-manage.ts, handleSynthesize)

The DC computation keeps a running dc plus a breakdown record whose keys
are assigned at most once (later assignments overwrite). -/

/-- The dcBreakdown record built by handleSynthesize.  Optional fields are
absent until the corresponding branch assigns them; assigning twice
overwrites with the same constant. -/
structure DcBreakdown where
  base : Int
  spellLevel : Int
  inCombat : Option Int := none
  novelEffect : Option Int := none
  relatedSpell : Option Int := none
  materialReduction : Option Int := none
  leyLine : Option Int := none
  celestialEvent : Option Int := none
  desperation : Option Int := none
  deriving Repr, DecidableEq

/-- Sum of all values recorded in a dcBreakdown. -/
def dcBreakdownSum (b : DcBreakdown) : Int :=
  b.base + b.spellLevel + b.inCombat.getD 0 + b.novelEffect.getD 0 +
    b.relatedSpell.getD 0 + b.materialReduction.getD 0 + b.leyLine.getD 0 +
    b.celestialEvent.getD 0 + b.desperation.getD 0

/-- The inputs of handleSynthesize that the DC computation reads. -/
structure SynthArgs where
  estimatedLevel : Int
  encounterId : Option String := none
  knownSpells : List String := []
  school : String
  effectType : String
  materialValue : Option Int := none
  circumstanceModifiers : Option (List String) := none
  deriving Repr

/-- lowerMod.includes('ley line') || lowerMod.includes('magical nexus') -/
def matchesLeyLine (m : String) : Bool :=
  lowerIncludes m "ley line" || lowerIncludes m "magical nexus"

/-- lowerMod.includes('blood moon') || lowerMod.includes('eclipse') -/
def matchesCelestial (m : String) : Bool :=
  lowerIncludes m "blood moon" || lowerIncludes m "eclipse"

/-- lowerMod.includes('desperation') || lowerMod.includes('urgency') -/
def matchesDesperation (m : String) : Bool :=
  lowerIncludes m "desperation" || lowerIncludes m "urgency"

/-- One iteration of the circumstance-modifier loop in handleSynthesize:
each keyword group that the lowercased string matches adjusts dc and
(re)assigns the single breakdown key of that group. -/
def applyCircumstance (acc : Int × DcBreakdown) (m : String) : Int × DcBreakdown :=
  let acc :=
    if matchesLeyLine m then (acc.1 - 3, { acc.2 with leyLine := some (-3) })
    else acc
  let acc :=
    if matchesCelestial m then (acc.1 - 2, { acc.2 with celestialEvent := some (-2) })
    else acc
  if matchesDesperation m then (acc.1 + 2, { acc.2 with desperation := some 2 })
  else acc

/-- knownSpells.some(spell => spell.toLowerCase().includes(school) ||
spell.toLowerCase().includes(effectType)); the school and effectType enum
literals are lowercase already. -/
def hasRelatedSpell (args : SynthArgs) : Bool :=
  args.knownSpells.any fun spell =>
    lowerIncludes spell args.school || lowerIncludes spell args.effectType

/-- The part of the handleSynthesize DC computation before the
circumstance-modifier loop.  Math.floor(materialValue / 100) is floor
division; the if (args.materialValue) guard is JavaScript truthiness, so a
present value of 0 is skipped. -/
def synthDcPreLoop (args : SynthArgs) : Int × DcBreakdown :=
  let l := args.estimatedLevel * 2
  let p0 : Int × DcBreakdown := (10 + l, { base := 10, spellLevel := l })
  let p1 :=
    if args.encounterId.isSome then (p0.1 + 2, { p0.2 with inCombat := some 2 })
    else p0
  let p2 :=
    if !hasRelatedSpell args then (p1.1 + 3, { p1.2 with novelEffect := some 3 })
    else (p1.1 - 2, { p1.2 with relatedSpell := some (-2) })
  match args.materialValue with
  | some v =>
    if v ≠ 0 then
      let reduction := min 5 (Int.fdiv v 100)
      (p2.1 - reduction, { p2.2 with materialReduction := some (-reduction) })
    else p2
  | none => p2

/-- The DC computation of handleSynthesize: returns the final dc together
with the dcBreakdown record. -/
def computeSynthDc (args : SynthArgs) : Int × DcBreakdown :=
  (args.circumstanceModifiers.getD []).foldl applyCircumstance (synthDcPreLoop args)

/-- How many extra times the dc adjustment of one circumstance group is
applied beyond the single recorded breakdown entry: k matching strings
adjust dc k times while the breakdown key is written once. -/
def extraApplications : Nat → Int
  | 0 => 0
  | Nat.succ n => (n : Int)

/-- The outcome cascade of handleSynthesize, as written in the source:
mastery, then success, then fizzle, then catastrophic, then backfire. -/
def synthOutcome (d20Roll modifier dc : Int) : String :=
  let total := d20Roll + modifier
  let margin := total - dc
  if d20Roll = 20 ∨ margin ≥ 10 then "mastery"
  else if total ≥ dc then "success"
  else if margin ≥ -5 then "fizzle"
  else if d20Roll = 1 ∨ margin ≤ -10 then "catastrophic"
  else "backfire"

/-! ## Custom effects and advance_durations (improvisation-manage.ts) -/

/-- A custom-effect row as the round-duration logic sees it. -/
structure CustomEffect where
  id : Nat
  targetId : String
  targetType : String
  name : String
  durationType : String
  roundsRemaining : Option Int
  isActive : Bool
  deriving Repr, DecidableEq

/-- Modelled from the spec: custom-effects.repo.ts advanceRounds (not under
src/) — decrements the rounds counter by the given number of rounds for
every active round-based effect on the target and returns the partitioned
lists of advanced and expired effects; an effect whose counter reaches 0
is flagged inactive (expired). -/
def advanceRounds (effects : List CustomEffect) (targetId targetType : String)
    (rounds : Int) : List CustomEffect × List CustomEffect × List CustomEffect :=
  let step (e : CustomEffect) : CustomEffect :=
    if e.targetId == targetId && e.targetType == targetType && e.isActive &&
        e.durationType == "rounds" then
      match e.roundsRemaining with
      | some r =>
        let r2 := r - rounds
        if r2 ≤ 0 then { e with roundsRemaining := some r2, isActive := false }
        else { e with roundsRemaining := some r2 }
      | none => e
    else e
  let table := effects.map step
  let touched := fun (e : CustomEffect) =>
    e.targetId == targetId && e.targetType == targetType &&
      e.durationType == "rounds" && e.roundsRemaining.isSome
  let advanced := (table.filter fun e => touched e && e.isActive)
  let expired := (table.filter fun e => touched e && !e.isActive &&
    (effects.any fun o => o.id == e.id && o.isActive))
  (table, advanced, expired)

/-- Modelled from the spec: custom-effects.repo.ts cleanupExpired (not under
src/) — deletes inactive effect rows and reports how many were removed. -/
def cleanupExpired (effects : List CustomEffect) : List CustomEffect × Nat :=
  (effects.filter (·.isActive), (effects.filter (fun e => !e.isActive)).length)

/-- The rounds field of AdvanceDurationsSchema:
z.number().int().min(1).default(1).  An omitted field takes the default 1;
a provided integer below 1 fails schema validation. -/
def parseRoundsField (provided : Option Int) : Option Int :=
  match provided with
  | none => some 1
  | some r => if 1 ≤ r then some r else none

/-- The advance_durations entry point: the action router parses the input
through AdvanceDurationsSchema and invokes handleAdvanceDurations only on
success, so a validation failure leaves the effects table untouched.
Returns (new table, advanced, expired, cleaned-up count) on success. -/
def advanceDurationsTool (effects : List CustomEffect)
    (targetId targetType : String) (roundsArg : Option Int) :
    List CustomEffect × Except String (List CustomEffect × List CustomEffect × Nat) :=
  match parseRoundsField roundsArg with
  | none => (effects, .error "ValidationError: rounds must be greater than or equal to 1")
  | some rounds =>
    let (table, advanced, expired) := advanceRounds effects targetId targetType rounds
    let (table, cleaned) := cleanupExpired table
    (table, .ok (advanced, expired, cleaned))

/-! ## Inventory repository (inventory.repo.ts)

The inventory_items table — PRIMARY KEY (character_id, item_id) — is an
association list of rows. -/

/-- A row of the inventory_items table. -/
structure InvEntry where
  characterId : String
  itemId : String
  quantity : Int
  equipped : Bool
  slot : Option String
  deriving Repr, DecidableEq

/-- WHERE character_id = ? AND item_id = ? -/
def invKeyMatch (c i : String) (e : InvEntry) : Bool :=
  e.characterId == c && e.itemId == i

/-- SELECT ... WHERE character_id = ? AND item_id = ? -/
def invFind (db : List InvEntry) (c i : String) : Option InvEntry :=
  db.find? (invKeyMatch c i)

/-- DELETE FROM inventory_items WHERE character_id = ? AND item_id = ? -/
def invDelete (db : List InvEntry) (c i : String) : List InvEntry :=
  db.filter fun e => !(invKeyMatch c i e)

/-- UPDATE ... SET quantity = f(quantity) WHERE character_id = ? AND
item_id = ? applied to one row. -/
def invAdjust (c i : String) (f : Int → Int) (e : InvEntry) : InvEntry :=
  if invKeyMatch c i e then { e with quantity := f e.quantity } else e

/-- UPDATE inventory_items SET quantity = quantity - ? WHERE ... -/
def invDecrement (db : List InvEntry) (c i : String) (q : Int) : List InvEntry :=
  db.map (invAdjust c i (· - q))

/-- INSERT ... ON CONFLICT(character_id, item_id) DO UPDATE SET
quantity = quantity + excluded.quantity.  A fresh row takes the table
defaults equipped = 0, slot = NULL. -/
def invUpsertAdd (db : List InvEntry) (c i : String) (q : Int) : List InvEntry :=
  if (invFind db c i).isSome then
    db.map (invAdjust c i (· + q))
  else
    db ++ [{ characterId := c, itemId := i, quantity := q, equipped := false, slot := none }]

/-- InventoryRepository.transferItem: absent source, insufficient quantity
or an equipped stack fail with false and no write; otherwise the source is
deleted (quantity = q) or decremented and the destination upserted, inside
one transaction — the model performs both writes as a single pure step, so
no intermediate state is observable. -/
def transferItem (db : List InvEntry) (fromC toC itemId : String) (q : Int) :
    List InvEntry × Bool :=
  match invFind db fromC itemId with
  | none => (db, false)
  | some row =>
    if row.quantity < q then (db, false)
    else if row.equipped then (db, false)
    else
      let db1 := if row.quantity == q then invDelete db fromC itemId
                 else invDecrement db fromC itemId q
      (invUpsertAdd db1 toC itemId q, true)

/-- UPDATE inventory_items SET equipped = 0, slot = NULL
WHERE character_id = ? AND slot = ? applied to one row. -/
def clearSlotStep (c slot : String) (e : InvEntry) : InvEntry :=
  if e.characterId = c ∧ e.slot = some slot then
    { e with equipped := false, slot := none }
  else e

/-- UPDATE inventory_items SET equipped = 1, slot = ?
WHERE character_id = ? AND item_id = ? applied to one row. -/
def equipTargetStep (c i slot : String) (e : InvEntry) : InvEntry :=
  if e.characterId = c ∧ e.itemId = i then
    { e with equipped := true, slot := some slot }
  else e

/-- InventoryRepository.equipItem: first unequip whatever occupies the
slot for that character, then equip the named item into it. -/
def equipItem (db : List InvEntry) (c i slot : String) : List InvEntry :=
  (db.map (clearSlotStep c slot)).map (equipTargetStep c i slot)

/-- InventoryRepository.unequipItem: UPDATE ... SET equipped = 0,
slot = NULL WHERE character_id = ? AND item_id = ?. -/
def unequipItem (db : List InvEntry) (c i : String) : List InvEntry :=
  db.map fun e =>
    if e.characterId = c ∧ e.itemId = i then
      { e with equipped := false, slot := none }
    else e

/-- An equip-layer operation, for reasoning about arbitrary sequences. -/
inductive InvOp where
  | equip (c i slot : String)
  | unequip (c i : String)
  deriving Repr, DecidableEq

/-- Run a sequence of equip/unequip operations left to right. -/
def applyInvOps (ops : List InvOp) (db : List InvEntry) : List InvEntry :=
  ops.foldl (fun db op =>
    match op with
    | .equip c i slot => equipItem db c i slot
    | .unequip c i => unequipItem db c i) db

/-- The inventory slot invariant: rows are keyed by (character_id,
item_id) (the table's primary key), every equipped row names a slot, and
two equipped rows of one character in the same slot are the same row. -/
def SlotInvariant (db : List InvEntry) : Prop :=
  (db.map fun e => (e.characterId, e.itemId)).Nodup ∧
  (∀ e ∈ db, e.equipped = true → e.slot ≠ none) ∧
  (∀ a ∈ db, ∀ b ∈ db, a.characterId = b.characterId → a.equipped = true →
    b.equipped = true → a.slot = b.slot → a.itemId = b.itemId)

instance (db : List InvEntry) : Decidable (SlotInvariant db) := by
  unfold SlotInvariant; infer_instance

/-! ## Theft and fences (theft-manage.ts) -/

/-- Heat levels of a stolen item. -/
inductive Heat where
  | burning | hot | warm | cool | cold
  deriving Repr, DecidableEq

/-- Modelled from the spec: HEAT_VALUES in schema/theft.ts (not under
src/) — burning = 80, hot = 60, warm = 40, cool = 20, cold = 5. -/
def heatValue : Heat → Int
  | .burning => 80
  | .hot => 60
  | .warm => 40
  | .cool => 20
  | .cold => 5

/-- A row of the theft_records table, keyed by itemId. -/
structure TheftRecord where
  itemId : String
  stolenFrom : String
  stolenBy : String
  stolenLocation : Option String
  witnesses : List String
  heatLevel : Heat
  reportedToGuards : Bool
  bounty : Int
  deriving Repr, DecidableEq

/-- A row of the fences table. -/
structure Fence where
  npcId : String
  factionId : Option String
  buyRate : ℚ
  maxHeatLevel : Heat
  dailyHeatCapacity : Int
  specializations : List String
  cooldownDays : Int
  deriving Repr, DecidableEq

/-- The persistent state the theft handlers touch. -/
structure TheftState where
  records : List TheftRecord
  fences : List Fence
  deriving Repr, DecidableEq

/-- TheftRepository.getTheftRecord: lookup by item id. -/
def getTheftRecord (st : TheftState) (itemId : String) : Option TheftRecord :=
  st.records.find? (·.itemId == itemId)

/-- Modelled from the spec: theft.repo.ts recordTheft (not under src/) —
creates a TheftRecord with initial heatLevel = burning, not yet reported,
zero bounty, and the supplied fields, and inserts it. -/
def recordTheft (st : TheftState) (itemId stolenFrom stolenBy : String)
    (stolenLocation : Option String) (witnesses : List String) :
    TheftState × TheftRecord :=
  let r : TheftRecord :=
    { itemId, stolenFrom, stolenBy, stolenLocation, witnesses,
      heatLevel := .burning, reportedToGuards := false, bounty := 0 }
  ({ st with records := st.records ++ [r] }, r)

/-- Modelled from the spec: theft.repo.ts getItemsStolenFrom (not under
src/) — the theft records naming the NPC as victim. -/
def getItemsStolenFrom (st : TheftState) (npcId : String) : List TheftRecord :=
  st.records.filter (·.stolenFrom == npcId)

/-- Modelled from the spec: theft.repo.ts registerFence (not under src/) —
inserts the fence row. -/
def registerFence (st : TheftState) (f : Fence) : TheftState :=
  { st with fences := st.fences ++ [f] }

/-- Is the NPC a registered fence? -/
def isFence (st : TheftState) (npcId : String) : Bool :=
  st.fences.any (·.npcId == npcId)

/-- Result of the steal action. -/
inductive StealResult where
  | err (message : String)
  | ok (record : TheftRecord)
  deriving Repr, DecidableEq

/-- handleSteal: self-theft is rejected before any write; otherwise a
record is created via recordTheft. -/
def handleSteal (st : TheftState) (thiefId victimId itemId : String)
    (witnesses : Option (List String)) (locationId : Option String) :
    TheftState × StealResult :=
  if thiefId == victimId then
    (st, .err "A character cannot steal from themselves")
  else
    let (st2, r) := recordTheft st itemId victimId thiefId locationId (witnesses.getD [])
    (st2, .ok r)

/-- The register_fence arguments after schema defaults
(buyRate 0.4, maxHeatLevel hot, dailyHeatCapacity 100, cooldownDays 7). -/
structure RegisterFenceArgs where
  npcId : String
  factionId : Option String := none
  buyRate : ℚ := 4 / 10
  maxHeatLevel : Heat := .hot
  dailyHeatCapacity : Int := 100
  specializations : Option (List String) := none
  cooldownDays : Int := 7
  deriving Repr

/-- The fence row built by handleRegisterFence from its arguments. -/
def fenceOfArgs (args : RegisterFenceArgs) : Fence :=
  { npcId := args.npcId, factionId := args.factionId, buyRate := args.buyRate,
    maxHeatLevel := args.maxHeatLevel, dailyHeatCapacity := args.dailyHeatCapacity,
    specializations := args.specializations.getD [], cooldownDays := args.cooldownDays }

/-- handleRegisterFence: fails when the NPC has any theft record as
victim; otherwise registers the fence. -/
def handleRegisterFence (st : TheftState) (args : RegisterFenceArgs) :
    TheftState × Except String Fence :=
  let stolenFromVictim := getItemsStolenFrom st args.npcId
  if stolenFromVictim.length > 0 then
    (st, .error "Cannot register a theft victim as a fence")
  else
    (registerFence st (fenceOfArgs args), .ok (fenceOfArgs args))

/-- The observable fields of a recognize response. -/
structure RecognizeOutcome where
  recognized : Bool
  isStolen : Bool
  recognizedBy : Option String := none
  reaction : Option String := none
  deriving Repr, DecidableEq

/-- handleRecognize.  Math.random() * 100 is modelled by the roll
parameter; the code compares roll < min(100, heatValue + bounty / 10) with
real (here rational) division of the bounty. -/
def handleRecognize (st : TheftState) (npcId itemId : String) (roll : ℚ) :
    RecognizeOutcome :=
  match getTheftRecord st itemId with
  | none => { recognized := false, isStolen := false }
  | some record =>
    if npcId == record.stolenFrom then
      { recognized := true, isStolen := true,
        recognizedBy := some "original_owner", reaction := some "hostile" }
    else if record.witnesses.contains npcId then
      { recognized := true, isStolen := true,
        recognizedBy := some "witness", reaction := some "suspicious" }
    else
      let recognitionChance : ℚ :=
        min 100 ((heatValue record.heatLevel : ℚ) + (record.bounty : ℚ) / 10)
      if roll < recognitionChance then
        { recognized := true, isStolen := true,
          recognizedBy := some "suspicion", reaction := some "suspicious" }
      else
        { recognized := false, isStolen := true }

/-! ## Combat tools (combat-tools.ts)

The combat manager caches an engine per sessionId:encounterId key; an
engine is represented by its state snapshot (the spec's restoration rule:
a reconstructed engine resumes from the saved state and an engine's
getState may be null before an encounter starts).  The encounters table
holds persisted snapshots. -/

/-- A combat participant token (the fields the checked handlers read). -/
structure Participant where
  id : String
  name : String
  initiativeBonus : Int := 0
  initiative : Int := 0
  isEnemy : Bool := false
  hp : Int
  maxHp : Int
  deriving Repr, DecidableEq

/-- The combat engine's state. -/
structure CombatState where
  participants : List Participant
  round : Int
  currentTurnIndex : Nat
  turnOrder : List String
  deriving Repr, DecidableEq

/-- A row of the characters table (the fields end_encounter touches). -/
structure Character where
  id : String
  name : String
  hp : Int
  maxHp : Int
  deriving Repr, DecidableEq

/-- Modelled from the spec: character.repo.ts findById (not under src/) —
typed CRUD lookup by primary key. -/
def charFindById (chars : List Character) (id : String) : Option Character :=
  chars.find? (·.id == id)

/-- UPDATE characters SET hp = ? WHERE id = ? applied to one row. -/
def charSetHp (id : String) (hp : Int) (c : Character) : Character :=
  if c.id == id then { c with hp := hp } else c

/-- Modelled from the spec: character.repo.ts update (not under src/) —
CRUD update of the supplied columns; end_encounter writes only hp. -/
def charUpdateHp (chars : List Character) (id : String) (hp : Int) :
    List Character :=
  chars.map (charSetHp id hp)

/-- The in-memory combat manager: namespaced key to cached engine. -/
abbrev CombatManager := List (String × Option CombatState)

/-- combatManager.get -/
def mgrGet (m : CombatManager) (key : String) : Option (Option CombatState) :=
  (m.find? (·.1 == key)).map (·.2)

/-- combatManager.create: bind the key to the engine. -/
def mgrCreate (m : CombatManager) (key : String) (e : Option CombatState) :
    CombatManager :=
  (key, e) :: m.filter (·.1 != key)

/-- combatManager.delete -/
def mgrDelete (m : CombatManager) (key : String) : CombatManager :=
  m.filter (·.1 != key)

/-- The encounters table as seen through EncounterRepository
loadState/saveState. -/
abbrev EncounterStore := List (String × CombatState)

/-- EncounterRepository.loadState -/
def encLoadState (db : EncounterStore) (id : String) : Option CombatState :=
  (db.find? (·.1 == id)).map (·.2)

/-- EncounterRepository.saveState -/
def encSaveState (db : EncounterStore) (id : String) (st : CombatState) :
    EncounterStore :=
  (id, st) :: db.filter (·.1 != id)

/-- The state a combat tool call can read or write. -/
structure ServerState where
  mgr : CombatManager
  encounters : EncounterStore
  chars : List Character
  deriving Repr, DecidableEq

/-- The per-participant record handleEndEncounter reports. -/
structure SyncResult where
  id : String
  name : String
  hp : Int
  synced : Bool
  deriving Repr, DecidableEq

/-- The write-back loop of handleEndEncounter: for each participant, if a
persisted character shares its id the token hp is copied into the
character row (synced = true); otherwise the participant is skipped with
no store mutation (synced = false). -/
def endEncounterSync (chars : List Character) (parts : List Participant) :
    List Character × List SyncResult :=
  parts.foldl
    (fun acc p =>
      match charFindById acc.1 p.id with
      | some _ => (charUpdateHp acc.1 p.id p.hp, acc.2 ++ [⟨p.id, p.name, p.hp, true⟩])
      | none => (acc.1, acc.2 ++ [⟨p.id, p.name, p.hp, false⟩]))
    (chars, [])

/-- The character-store component of the write-back loop (the sync-result
list does not feed back into the store). -/
def syncChars (chars : List Character) (parts : List Participant) : List Character :=
  parts.foldl
    (fun cs p => if (charFindById cs p.id).isSome then charUpdateHp cs p.id p.hp else cs)
    chars

/-- handleEndEncounter: reads the engine from the in-memory manager only —
no auto-load from the encounters table — and throws if it is absent; on
success it syncs hp and deletes the manager entry. -/
def handleEndEncounter (s : ServerState) (sessionId encounterId : String) :
    Except String (ServerState × List SyncResult) :=
  let nsId := sessionId ++ ":" ++ encounterId
  match mgrGet s.mgr nsId with
  | none => .error ("Encounter " ++ encounterId ++ " not found.")
  | some engineState =>
    let (chars2, syncs) :=
      match engineState with
      | some finalState => endEncounterSync s.chars finalState.participants
      | none => (s.chars, [])
    .ok ({ s with mgr := mgrDelete s.mgr nsId, chars := chars2 }, syncs)

/-- The auto-load prologue shared by get_encounter_state,
execute_combat_action and advance_turn: use the cached engine when
present, otherwise load the persisted snapshot into a fresh engine and
cache it; throw not-found only when neither exists. -/
def resolveEngine (s : ServerState) (sessionId encounterId : String) :
    Except String (ServerState × CombatState) :=
  let nsId := sessionId ++ ":" ++ encounterId
  match mgrGet s.mgr nsId with
  | some (some st) => .ok (s, st)
  | some none => .error "No active encounter"
  | none =>
    match encLoadState s.encounters encounterId with
    | none => .error ("Encounter " ++ encounterId ++ " not found.")
    | some st => .ok ({ s with mgr := mgrCreate s.mgr nsId (some st) }, st)

/-- Result of an attack action. -/
structure AttackResult where
  roll : Int
  hit : Bool
  critical : Bool
  damageApplied : Int
  defeated : Bool
  deriving Repr, DecidableEq

/-- Modelled from the spec: the combat engine's executeAttack
(engine/combat/engine.ts is not under src/) — d20 of 1 is an automatic
miss, 20 an automatic critical (damage doubled), otherwise hit iff
roll + attackBonus ≥ dc; damage is subtracted clamped at 0 and a target at
0 hp is defeated. -/
def executeAttack (st : CombatState) (targetId : String)
    (attackBonus dc damage d20 : Int) : CombatState × AttackResult :=
  let crit := d20 = 20
  let hitB : Bool :=
    if d20 = 1 then false
    else if d20 = 20 then true
    else decide (d20 + attackBonus ≥ dc)
  if hitB then
    let dmg := if crit then damage * 2 else damage
    let parts := st.participants.map fun p =>
      if p.id == targetId then { p with hp := max 0 (p.hp - dmg) } else p
    let defeated := (parts.find? (·.id == targetId)).elim false fun p => p.hp ≤ 0
    ({ st with participants := parts },
      { roll := d20, hit := true, critical := crit, damageApplied := dmg, defeated })
  else
    (st, { roll := d20, hit := false, critical := crit, damageApplied := 0,
           defeated := false })

/-- The participant at a turn-order index. -/
def tokenAt (st : CombatState) (i : Nat) : Option Participant :=
  (st.turnOrder.get? i).bind fun id => st.participants.find? (·.id == id)

/-- Is the participant at the index alive? -/
def isAliveAt (st : CombatState) (i : Nat) : Bool :=
  (tokenAt st i).elim false fun p => 0 < p.hp

/-- Modelled from the spec: the combat engine's turn advance
(engine/combat/engine.ts is not under src/) — move currentTurnIndex
forward skipping defeated tokens, incrementing round on wrap-around. -/
def nextTurn (st : CombatState) : CombatState :=
  let n := st.turnOrder.length
  if n = 0 then st
  else
    let candidates := (List.range n).map fun k => (st.currentTurnIndex + 1 + k) % n
    let next := (candidates.find? (isAliveAt st)).getD ((st.currentTurnIndex + 1) % n)
    { st with currentTurnIndex := next,
              round := if next ≤ st.currentTurnIndex then st.round + 1 else st.round }

/-- handleExecuteCombatAction for an attack: auto-load the engine if it is
not cached, resolve the attack, then save the state to the manager and the
encounters table. -/
def handleExecuteCombatAction (s : ServerState) (sessionId encounterId targetId : String)
    (attackBonus dc damage d20 : Int) : Except String (ServerState × AttackResult) :=
  match resolveEngine s sessionId encounterId with
  | .error e => .error e
  | .ok (s2, st) =>
    let (st2, result) := executeAttack st targetId attackBonus dc damage d20
    let nsId := sessionId ++ ":" ++ encounterId
    .ok ({ s2 with mgr := mgrCreate s2.mgr nsId (some st2),
                   encounters := encSaveState s2.encounters encounterId st2 }, result)

/-- handleAdvanceTurn: auto-load the engine if it is not cached, advance
the turn, then save the state. -/
def handleAdvanceTurn (s : ServerState) (sessionId encounterId : String) :
    Except String ServerState :=
  match resolveEngine s sessionId encounterId with
  | .error e => .error e
  | .ok (s2, st) =>
    let st2 := nextTurn st
    let nsId := sessionId ++ ":" ++ encounterId
    .ok { s2 with mgr := mgrCreate s2.mgr nsId (some st2),
                  encounters := encSaveState s2.encounters encounterId st2 }

/-- handleGetEncounterState: auto-load the engine if it is not cached and
return its state; the encounters table is not written. -/
def handleGetEncounterState (s : ServerState) (sessionId encounterId : String) :
    Except String (ServerState × CombatState) :=
  resolveEngine s sessionId encounterId

/-- The contract of transferItem claimed by the specification: failure
(absent source, insufficient quantity, equipped stack) returns false with
the table untouched; success decrements or deletes the source row and
upserts the destination row in one atomic step. -/
def TransferSpec (db : List InvEntry) (fromC toC itemId : String) (q : Int) : Prop :=
  match invFind db fromC itemId with
  | none => transferItem db fromC toC itemId q = (db, false)
  | some row =>
    if row.quantity < q ∨ row.equipped = true then
      transferItem db fromC toC itemId q = (db, false)
    else
      (transferItem db fromC toC itemId q).2 = true ∧
      invFind (transferItem db fromC toC itemId q).1 fromC itemId =
        (if row.quantity = q then none
         else some { row with quantity := row.quantity - q }) ∧
      invFind (transferItem db fromC toC itemId q).1 toC itemId =
        (match invFind db toC itemId with
         | some dst => some { dst with quantity := dst.quantity + q }
         | none => some { characterId := toC, itemId := itemId, quantity := q,
                          equipped := false, slot := none })

/-! ## Concrete fixtures used by witness theorems -/

/-- A small inventory: character A holds three swords (unequipped),
character B holds one. -/
def exInvDb : List InvEntry :=
  [{ characterId := "A", itemId := "sword", quantity := 3, equipped := false,
     slot := none },
   { characterId := "B", itemId := "sword", quantity := 1, equipped := false,
     slot := none }]

/-- A persisted hero character at 20 hp. -/
def exHero : Character := { id := "hero", name := "Valeros", hp := 20, maxHp := 20 }

/-- A final combat state: the hero token down to 17 hp, an ad-hoc goblin
(no persisted character) at 0. -/
def exFinalState : CombatState :=
  { participants :=
      [{ id := "hero", name := "Valeros", hp := 17, maxHp := 20 },
       { id := "goblin", name := "Goblin", hp := 0, maxHp := 7 }],
    round := 2, currentTurnIndex := 0, turnOrder := ["hero", "goblin"] }

/-- A server state whose in-memory manager caches the encounter under the
session namespace. -/
def exServerState : ServerState :=
  { mgr := [("sess:enc", some exFinalState)], encounters := [], chars := [exHero] }

/-- A server state with no cached engine but a persisted snapshot of the
same encounter. -/
def exSnapshotOnlyState : ServerState :=
  { mgr := [], encounters := [("enc", exFinalState)], chars := [exHero] }

/-- A burning, unreported theft record with one witness. -/
def exTheftRecord : TheftRecord :=
  { itemId := "x", stolenFrom := "own", stolenBy := "B", stolenLocation := none,
    witnesses := ["w"], heatLevel := .burning, reportedToGuards := false,
    bounty := 0 }

/-- A theft state holding exactly the fixture record. -/
def exTheftState : TheftState := ⟨[exTheftRecord], []⟩

/-! # Theorems -/

/-! ## C2 — natural 1 in arcane synthesis -/

/-- C2 counterexample: a synthesize roll of natural 1 with modifier 0
against dc 4 has margin −3 ∈ [−5, −1] and resolves to fizzle, not
catastrophic, because the source tests the fizzle band before the
natural-1 test. -/
theorem synthOutcome_nat1_fizzle_counterexample :
    synthOutcome 1 0 4 = "fizzle" ∧ synthOutcome 1 0 4 ≠ "catastrophic" := by
  decide

/-- C2 (amended): on a natural 1 the outcome follows the general cascade —
mastery when margin ≥ 10, success when the total meets the DC, fizzle when
margin ∈ [−5, −1], and catastrophic only when margin ≤ −6 (the natural-1
test then fires before the backfire default, so a natural 1 never
backfires). -/
theorem synthOutcome_nat1_cases (modifier dc : Int) :
    synthOutcome 1 modifier dc =
      if 1 + modifier - dc ≥ 10 then "mastery"
      else if 1 + modifier ≥ dc then "success"
      else if 1 + modifier - dc ≥ -5 then "fizzle"
      else "catastrophic" := by
  simp only [synthOutcome]
  split_ifs <;> first | rfl | omega | simp_all

/-! ## C3 — advance_durations with rounds = 0 -/

/-- C3 counterexample: an advance_durations input with rounds = 0 is not
accepted — AdvanceDurationsSchema requires rounds ≥ 1, so the call fails
validation (and, the handler never running, the effects table is
returned untouched). -/
theorem advanceDurationsTool_zero_counterexample :
    advanceDurationsTool
      [{ id := 1, targetId := "t1", targetType := "character", name := "Bless",
         durationType := "rounds", roundsRemaining := some 3, isActive := true }]
      "t1" "character" (some 0) =
      ([{ id := 1, targetId := "t1", targetType := "character", name := "Bless",
          durationType := "rounds", roundsRemaining := some 3, isActive := true }],
       .error "ValidationError: rounds must be greater than or equal to 1") := rfl

/-- C3 (amended): advance_durations rejects rounds = 0 at schema
validation (z.number().int().min(1)); the handler is never invoked, so
every effect's remaining-duration state is unchanged by such a call.  An
omitted rounds field defaults to 1. -/
theorem advanceDurationsTool_rejects_zero (effects : List CustomEffect)
    (targetId targetType : String) :
    advanceDurationsTool effects targetId targetType (some 0) =
      (effects, .error "ValidationError: rounds must be greater than or equal to 1") ∧
    parseRoundsField none = some 1 :=
  ⟨rfl, rfl⟩

/-! ## C10 — dc versus dcBreakdown -/

/-- The circumstance loop, folded: each matching string adjusts dc by the
group's constant, while each breakdown key is written (to the same
constant) as soon as at least one string matches its group. -/
theorem foldl_applyCircumstance (mods : List String) (dc : Int) (bd : DcBreakdown) :
    mods.foldl applyCircumstance (dc, bd) =
      (dc - 3 * (mods.countP matchesLeyLine : Int)
          - 2 * (mods.countP matchesCelestial : Int)
          + 2 * (mods.countP matchesDesperation : Int),
       { bd with
          leyLine := if mods.countP matchesLeyLine = 0 then bd.leyLine else some (-3),
          celestialEvent :=
            if mods.countP matchesCelestial = 0 then bd.celestialEvent else some (-2),
          desperation :=
            if mods.countP matchesDesperation = 0 then bd.desperation else some 2 }) := by
  induction mods generalizing dc bd with
  | nil => simp
  | cons m rest ih =>
    obtain ⟨b1, b2, b3, b4, b5, b6, b7, b8, b9⟩ := bd
    simp only [List.foldl_cons, List.countP_cons, applyCircumstance]
    by_cases h1 : matchesLeyLine m <;> by_cases h2 : matchesCelestial m <;>
      by_cases h3 : matchesDesperation m <;>
      simp only [h1, h2, h3, if_true, if_false, ih, Prod.mk.injEq] <;>
      refine ⟨by push_cast; ring, ?_⟩ <;>
      simp_all

/-- The pre-loop dc already equals the sum of its breakdown, and the three
circumstance keys are still unassigned. -/
theorem synthDcPreLoop_sum (args : SynthArgs) :
    (synthDcPreLoop args).1 = dcBreakdownSum (synthDcPreLoop args).2 ∧
    (synthDcPreLoop args).2.leyLine = none ∧
    (synthDcPreLoop args).2.celestialEvent = none ∧
    (synthDcPreLoop args).2.desperation = none := by
  unfold synthDcPreLoop
  cases args.materialValue <;>
    simp only [dcBreakdownSum] <;> split_ifs <;>
    simp [dcBreakdownSum] <;> ring

/-- C10 counterexample: with circumstanceModifiers = two strings both
containing 'ley line' (level 1, no known spells), the −3 adjustment is
applied twice, giving dc = 9, while dcBreakdown records leyLine once and
sums to 12 — the reported dc does not equal the sum of dcBreakdown. -/
theorem synthDc_breakdown_mismatch_counterexample :
    let args : SynthArgs :=
      { estimatedLevel := 1, school := "evocation", effectType := "damage",
        circumstanceModifiers := some ["ley line", "ley line"] }
    (computeSynthDc args).1 = 9 ∧
    dcBreakdownSum (computeSynthDc args).2 = 12 ∧
    (computeSynthDc args).1 ≠ dcBreakdownSum (computeSynthDc args).2 := by
  decide

/-- C10 (amended): the reported dc equals the sum of dcBreakdown plus the
extra per-string applications — a circumstance group matched by k strings
adjusts dc k times while dcBreakdown records one entry, so dc and the
breakdown sum agree exactly when every group is matched by at most one
string. -/
theorem computeSynthDc_dc_vs_breakdown_sum (args : SynthArgs) :
    (computeSynthDc args).1 =
      dcBreakdownSum (computeSynthDc args).2
        - 3 * extraApplications ((args.circumstanceModifiers.getD []).countP matchesLeyLine)
        - 2 * extraApplications ((args.circumstanceModifiers.getD []).countP matchesCelestial)
        + 2 * extraApplications ((args.circumstanceModifiers.getD []).countP matchesDesperation) := by
  obtain ⟨hsum, h1, h2, h3⟩ := synthDcPreLoop_sum args
  have hextra : ∀ k : Nat, extraApplications k = if k = 0 then 0 else (k : Int) - 1 := by
    intro k; cases k <;> simp [extraApplications]
  unfold computeSynthDc
  rw [foldl_applyCircumstance]
  simp only [dcBreakdownSum, hextra] at *
  rw [h1, h2, h3]
  split_ifs <;>
    simp_all only [Option.getD_some, Option.getD_none] <;> omega

/-! ## C6 — steal action -/

/-- C6: handleSteal rejects self-theft with an error and no state change;
with distinct thief and victim it appends exactly one record whose heat
level is burning and whose witnesses are exactly the supplied ones (empty
when omitted). -/
theorem handleSteal_spec (st : TheftState) (thiefId victimId itemId : String)
    (witnesses : Option (List String)) (locationId : Option String) :
    (thiefId = victimId →
      handleSteal st thiefId victimId itemId witnesses locationId =
        (st, .err "A character cannot steal from themselves")) ∧
    (thiefId ≠ victimId →
      ∃ r, handleSteal st thiefId victimId itemId witnesses locationId =
          ({ st with records := st.records ++ [r] }, .ok r) ∧
        r.heatLevel = .burning ∧ r.witnesses = witnesses.getD [] ∧
        r.stolenFrom = victimId ∧ r.stolenBy = thiefId ∧ r.itemId = itemId) := by
  constructor
  · intro h
    simp [handleSteal, h]
  · intro h
    refine ⟨{ itemId := itemId, stolenFrom := victimId, stolenBy := thiefId,
              stolenLocation := locationId, witnesses := witnesses.getD [],
              heatLevel := .burning, reportedToGuards := false, bounty := 0 },
            ?_, rfl, rfl, rfl, rfl, rfl⟩
    simp [handleSteal, recordTheft, h]

/-- C6 witness: a concrete self-theft rejection and a concrete successful
steal whose record carries burning heat and the supplied witness list. -/
theorem handleSteal_spec_witness :
    (handleSteal ⟨[], []⟩ "A" "A" "x" none none =
      (⟨[], []⟩, .err "A character cannot steal from themselves")) ∧
    (∃ r, handleSteal ⟨[], []⟩ "B" "A" "x" (some ["w1"]) none =
        ({ TheftState.mk [] [] with records := [] ++ [r] }, .ok r) ∧
      r.heatLevel = .burning ∧ r.witnesses = (some ["w1"]).getD [] ∧
      r.stolenFrom = "A" ∧ r.stolenBy = "B" ∧ r.itemId = "x") :=
  ⟨(handleSteal_spec ⟨[], []⟩ "A" "A" "x" none none).1 rfl,
   (handleSteal_spec ⟨[], []⟩ "B" "A" "x" (some ["w1"]) none).2 (by decide)⟩

/-! ## C5 — register_fence versus theft victims -/

/-- C5 counterexample: registering NPC A as a fence succeeds while A has
no theft record, and a subsequent steal naming A as victim also succeeds —
handleSteal never checks the fences table — leaving A simultaneously a
registered fence and a theft victim. -/
theorem fence_then_victim_counterexample :
    let st1 := (handleRegisterFence ⟨[], []⟩ { npcId := "A" }).1
    let st2 := (handleSteal st1 "B" "A" "loot" none none).1
    isFence st2 "A" = true ∧ getItemsStolenFrom st2 "A" ≠ [] := by
  decide

/-- C5 (amended): a register_fence request for an NPC with a theft-victim
record fails and creates no fence, and with no such record it registers
exactly the requested fence; this makes the no-fence-victim invariant hold
at registration time only — it is not preserved by later steals (see the
counterexample). -/
theorem handleRegisterFence_spec (st : TheftState) (args : RegisterFenceArgs) :
    (getItemsStolenFrom st args.npcId ≠ [] →
      handleRegisterFence st args =
        (st, .error "Cannot register a theft victim as a fence")) ∧
    (getItemsStolenFrom st args.npcId = [] →
      handleRegisterFence st args =
        ({ st with fences := st.fences ++ [fenceOfArgs args] }, .ok (fenceOfArgs args))) := by
  constructor
  · intro h
    have hlen : (getItemsStolenFrom st args.npcId).length > 0 :=
      List.length_pos.mpr h
    simp [handleRegisterFence, hlen]
  · intro h
    simp [handleRegisterFence, registerFence, h]

/-- C5 witness: a concrete rejected registration of a theft victim and a
concrete accepted registration of an unrelated NPC. -/
theorem handleRegisterFence_spec_witness :
    (handleRegisterFence
        ⟨[{ itemId := "x", stolenFrom := "V", stolenBy := "B", stolenLocation := none,
            witnesses := [], heatLevel := .burning, reportedToGuards := false,
            bounty := 0 }], []⟩
        { npcId := "V" } =
      (⟨[{ itemId := "x", stolenFrom := "V", stolenBy := "B", stolenLocation := none,
            witnesses := [], heatLevel := .burning, reportedToGuards := false,
            bounty := 0 }], []⟩,
       .error "Cannot register a theft victim as a fence")) ∧
    (handleRegisterFence ⟨[], []⟩ { npcId := "N" } =
      ({ TheftState.mk [] [] with
          fences := [] ++ [fenceOfArgs { npcId := "N" }] },
       .ok (fenceOfArgs { npcId := "N" }))) :=
  ⟨(handleRegisterFence_spec
      ⟨[{ itemId := "x", stolenFrom := "V", stolenBy := "B", stolenLocation := none,
          witnesses := [], heatLevel := .burning, reportedToGuards := false,
          bounty := 0 }], []⟩
      { npcId := "V" }).1 (by decide),
   (handleRegisterFence_spec ⟨[], []⟩ { npcId := "N" }).2 (by decide)⟩

/-! ## C7 — recognition order and tie-break -/

/-- C7: recognition resolves in source order — the original owner always
recognizes with hostile reaction, then a witness recognizes with
suspicious reaction, and otherwise the rolled percent recognizes exactly
when strictly below min(100, heatValue + bounty / 10), so a roll equal to
the threshold is not recognized. -/
theorem handleRecognize_spec (st : TheftState) (npcId itemId : String) (roll : ℚ)
    (r : TheftRecord) (hr : getTheftRecord st itemId = some r) :
    (npcId = r.stolenFrom →
      handleRecognize st npcId itemId roll =
        { recognized := true, isStolen := true,
          recognizedBy := some "original_owner", reaction := some "hostile" }) ∧
    (npcId ≠ r.stolenFrom → npcId ∈ r.witnesses →
      handleRecognize st npcId itemId roll =
        { recognized := true, isStolen := true,
          recognizedBy := some "witness", reaction := some "suspicious" }) ∧
    (npcId ≠ r.stolenFrom → npcId ∉ r.witnesses →
      ((handleRecognize st npcId itemId roll).recognized = true ↔
        roll < min 100 ((heatValue r.heatLevel : ℚ) + (r.bounty : ℚ) / 10)) ∧
      (roll = min 100 ((heatValue r.heatLevel : ℚ) + (r.bounty : ℚ) / 10) →
        (handleRecognize st npcId itemId roll).recognized = false)) := by
  refine ⟨?_, ?_, ?_⟩
  · intro h
    simp [handleRecognize, hr, h]
  · intro h hw
    simp [handleRecognize, hr, h, hw]
  · intro h hw
    constructor
    · simp only [handleRecognize, hr, h, hw]
      split_ifs with hlt <;> simp_all
    · intro he
      simp only [handleRecognize, hr, h, hw, he]
      split_ifs with hlt <;> simp_all

/-- C7 witness: on a burning record with no bounty, the owner recognizes,
a witness recognizes, and a neutral NPC rolling exactly the threshold 80
does not recognize. -/
theorem handleRecognize_spec_witness :
    (handleRecognize exTheftState "own" "x" 0 =
      { recognized := true, isStolen := true,
        recognizedBy := some "original_owner", reaction := some "hostile" }) ∧
    (handleRecognize exTheftState "w" "x" 0 =
      { recognized := true, isStolen := true,
        recognizedBy := some "witness", reaction := some "suspicious" }) ∧
    (handleRecognize exTheftState "g" "x" 80).recognized = false :=
  ⟨(handleRecognize_spec exTheftState "own" "x" 0 exTheftRecord rfl).1 (by decide),
   ((handleRecognize_spec exTheftState "w" "x" 0 exTheftRecord rfl).2.1
     (by decide) (by decide)),
   ((handleRecognize_spec exTheftState "g" "x" 80 exTheftRecord rfl).2.2
     (by decide) (by decide)).2 (by norm_num [exTheftRecord, heatValue])⟩

/-! ## C4 — inventory transfer -/

/-- Appending a row that fails the search predicate does not change a
lookup. -/
theorem find_append_single_ne {α : Type} (l : List α) (x : α) (p : α → Bool)
    (hx : p x = false) : (l ++ [x]).find? p = l.find? p := by
  induction l with
  | nil => simp [List.find?_cons, hx]
  | cons a t ih =>
    cases h : p a <;>
      simp [List.cons_append, List.find?_cons, h, ih]

/-- Appending a row that satisfies the search predicate to a list with no
match makes the lookup find it. -/
theorem find_append_single_hit {α : Type} (l : List α) (x : α) (p : α → Bool)
    (h : l.find? p = none) (hx : p x = true) : (l ++ [x]).find? p = some x := by
  induction l with
  | nil => simp [List.find?_cons, hx]
  | cons a t ih =>
    cases ha : p a
    · simp only [List.find?_cons, ha] at h
      simp only [List.cons_append, List.find?_cons, ha]
      exact ih h
    · simp [List.find?_cons, ha] at h

/-- invAdjust keeps the row's key. -/
theorem invKeyMatch_invAdjust (c i c' i' : String) (f : Int → Int) (e : InvEntry) :
    invKeyMatch c' i' (invAdjust c i f e) = invKeyMatch c' i' e := by
  unfold invAdjust
  split_ifs <;> rfl

/-- A quantity adjustment of the (c, i) rows is visible at key (c, i) as a
quantity update of the found row. -/
theorem invFind_mapAdjust_self (db : List InvEntry) (c i : String) (f : Int → Int) :
    invFind (db.map (invAdjust c i f)) c i =
      (invFind db c i).map fun e => { e with quantity := f e.quantity } := by
  induction db with
  | nil => rfl
  | cons e t ih =>
    cases h : invKeyMatch c i e
    · have h3 : invAdjust c i f e = e := by
        unfold invAdjust; rw [if_neg (by simp [h])]
      simp only [invFind, List.map_cons, List.find?_cons, h3, h] at *
      exact ih
    · have h3 : invAdjust c i f e = { e with quantity := f e.quantity } := by
        unfold invAdjust; rw [if_pos h]
      have h4 : invKeyMatch c i ({ e with quantity := f e.quantity } : InvEntry) = true := h
      simp only [invFind, List.map_cons, List.find?_cons, h3, h4, h]
      rfl

/-- A quantity adjustment of the (c, i) rows does not change a lookup at a
different key. -/
theorem invFind_mapAdjust_ne (db : List InvEntry) (c i c' i' : String)
    (f : Int → Int) (hkey : ¬(c' = c ∧ i' = i)) :
    invFind (db.map (invAdjust c i f)) c' i' = invFind db c' i' := by
  induction db with
  | nil => rfl
  | cons e t ih =>
    cases h : invKeyMatch c' i' e
    · have h3 : invKeyMatch c' i' (invAdjust c i f e) = false := by
        rw [invKeyMatch_invAdjust]; exact h
      simp only [invFind, List.map_cons, List.find?_cons, h3, h] at *
      exact ih
    · have hne : invKeyMatch c i e = false := by
        simp only [invKeyMatch, Bool.and_eq_true, beq_iff_eq] at h
        simp only [invKeyMatch, Bool.and_eq_false_iff, beq_eq_false_iff_ne]
        by_cases hc : c' = c
        · right; intro hi; exact hkey ⟨hc, (h.2.symm.trans hi).symm ▸ rfl⟩
        · left; intro hc2; exact hc ((h.1.symm.trans hc2))
      have h2 : invAdjust c i f e = e := by
        unfold invAdjust; rw [if_neg (by simp [hne])]
      simp only [invFind, List.map_cons, List.find?_cons, h2, h]

/-- Deleting the (c, i) row leaves no row at that key. -/
theorem invFind_delete_self (db : List InvEntry) (c i : String) :
    invFind (invDelete db c i) c i = none := by
  induction db with
  | nil => rfl
  | cons e t ih =>
    cases h : invKeyMatch c i e <;>
      simp only [invDelete, invFind, List.filter_cons, h, Bool.not_true, Bool.not_false,
        Bool.false_eq_true, if_false, if_true, List.find?_cons] at * <;>
      exact ih

/-- Deleting the (c, i) rows does not change a lookup at a different
key. -/
theorem invFind_delete_ne (db : List InvEntry) (c i c' i' : String)
    (hkey : ¬(c' = c ∧ i' = i)) :
    invFind (invDelete db c i) c' i' = invFind db c' i' := by
  induction db with
  | nil => rfl
  | cons e t ih =>
    cases h : invKeyMatch c' i' e
    · cases h2 : invKeyMatch c i e <;>
        simp only [invDelete, invFind, List.filter_cons, h, h2, Bool.not_true, Bool.not_false,
          Bool.false_eq_true, if_false, if_true, List.find?_cons] at * <;>
        exact ih
    · have hne : invKeyMatch c i e = false := by
        simp only [invKeyMatch, Bool.and_eq_true, beq_iff_eq] at h
        simp only [invKeyMatch, Bool.and_eq_false_iff, beq_eq_false_iff_ne]
        by_cases hc : c' = c
        · right; intro hi; exact hkey ⟨hc, (h.2.symm.trans hi).symm ▸ rfl⟩
        · left; intro hc2; exact hc ((h.1.symm.trans hc2))
      simp only [invDelete, invFind, List.filter_cons, h, hne, Bool.not_false, if_true,
        List.find?_cons]

/-- The upsert is visible at its own key as an increment of the found row
or the freshly inserted default row (equipped = 0, slot = NULL). -/
theorem invFind_upsert_self (db : List InvEntry) (c i : String) (q : Int) :
    invFind (invUpsertAdd db c i q) c i =
      (match invFind db c i with
       | some e => some { e with quantity := e.quantity + q }
       | none => some { characterId := c, itemId := i, quantity := q,
                        equipped := false, slot := none }) := by
  unfold invUpsertAdd
  cases hf : invFind db c i with
  | some r =>
    rw [if_pos (by simp [hf])]
    rw [invFind_mapAdjust_self, hf]
    rfl
  | none =>
    rw [if_neg (by simp [hf])]
    exact find_append_single_hit db _ _ hf (by simp [invKeyMatch])

/-- The upsert at (c, i) does not change a lookup at a different key. -/
theorem invFind_upsert_ne (db : List InvEntry) (c i c' i' : String) (q : Int)
    (hkey : ¬(c' = c ∧ i' = i)) :
    invFind (invUpsertAdd db c i q) c' i' = invFind db c' i' := by
  unfold invUpsertAdd
  split_ifs with hs
  · exact invFind_mapAdjust_ne db c i c' i' _ hkey
  · refine find_append_single_ne db _ _ ?_
    simp only [invKeyMatch, Bool.and_eq_false_iff, beq_eq_false_iff_ne]
    by_cases hc : c' = c
    · right; intro hi; exact hkey ⟨hc, hi.symm⟩
    · left; intro hc2; exact hc hc2.symm

/-- C4: transferItem meets its contract — an absent source row,
insufficient quantity, or an equipped stack returns false with the table
byte-for-byte unchanged; otherwise it returns true, the source row is
deleted (quantity = q) or decremented by q, and the destination row is
incremented by q or freshly inserted; both writes happen in one
transaction, modelled as a single pure step, so no intermediate state is
observable. -/
theorem transferItem_meets_spec (db : List InvEntry) (fromC toC itemId : String)
    (q : Int) (hne : fromC ≠ toC) : TransferSpec db fromC toC itemId q := by
  unfold TransferSpec
  cases hfrom : invFind db fromC itemId with
  | none => simp [transferItem, hfrom]
  | some row =>
    dsimp only
    by_cases hq : row.quantity < q
    · rw [if_pos (Or.inl hq)]
      simp [transferItem, hfrom, hq]
    · by_cases heq : row.equipped
      · rw [if_pos (Or.inr heq)]
        simp [transferItem, hfrom, hq, heq]
      · rw [if_neg (not_or.mpr ⟨hq, heq⟩)]
        have hkeyFrom : ¬(fromC = toC ∧ itemId = itemId) := fun h2 => hne h2.1
        have hkeyTo : ¬(toC = fromC ∧ itemId = itemId) := fun h2 => hne h2.1.symm
        by_cases hqq : row.quantity = q
        · have htr : transferItem db fromC toC itemId q =
              (invUpsertAdd (invDelete db fromC itemId) toC itemId q, true) := by
            simp [transferItem, hfrom, hq, heq, hqq]
          rw [htr]
          refine ⟨rfl, ?_, ?_⟩
          · rw [if_pos hqq]
            rw [invFind_upsert_ne _ _ _ _ _ _ hkeyFrom]
            exact invFind_delete_self db fromC itemId
          · rw [invFind_upsert_self]
            rw [invFind_delete_ne _ _ _ _ _ hkeyTo]
        · have htr : transferItem db fromC toC itemId q =
              (invUpsertAdd (invDecrement db fromC itemId q) toC itemId q, true) := by
            simp [transferItem, hfrom, hq, heq, hqq]
          rw [htr]
          refine ⟨rfl, ?_, ?_⟩
          · rw [if_neg hqq]
            rw [invFind_upsert_ne _ _ _ _ _ _ hkeyFrom]
            unfold invDecrement
            rw [invFind_mapAdjust_self, hfrom]
            rfl
          · rw [invFind_upsert_self]
            unfold invDecrement
            rw [invFind_mapAdjust_ne _ _ _ _ _ _ hkeyTo]

/-- C4 witness: transferring 2 of A's 3 swords to B satisfies the
contract at a concrete inventory. -/
theorem transferItem_meets_spec_witness : TransferSpec exInvDb "A" "B" "sword" 2 :=
  transferItem_meets_spec exInvDb "A" "B" "sword" 2 (by decide)

/-- charSetHp keeps the row's id. -/
theorem charSetHp_id (id : String) (hp : Int) (c : Character) :
    (charSetHp id hp c).id = c.id := by
  unfold charSetHp
  split_ifs <;> rfl

/-- Updating a character's hp keeps the list of character ids. -/
theorem charUpdateHp_map_id (chars : List Character) (id : String) (hp : Int) :
    (charUpdateHp chars id hp).map (·.id) = chars.map (·.id) := by
  unfold charUpdateHp
  rw [List.map_map]
  apply List.map_eq_map_iff.mpr
  intro c _
  exact charSetHp_id id hp c

/-- The hp update is visible at its own id. -/
theorem charFindById_update_self (chars : List Character) (id : String) (hp : Int) :
    charFindById (charUpdateHp chars id hp) id =
      (charFindById chars id).map fun c => { c with hp := hp } := by
  induction chars with
  | nil => rfl
  | cons c t ih =>
    cases h : (c.id == id)
    · have h3 : ((charSetHp id hp c).id == id) = false := by rw [charSetHp_id]; exact h
      have h4 : charSetHp id hp c = c := by
        unfold charSetHp
        rw [if_neg (by simp [h])]
      simp only [charFindById, charUpdateHp, List.map_cons, List.find?_cons, h3, h4, h] at *
      exact ih
    · have h3 : ((charSetHp id hp c).id == id) = true := by rw [charSetHp_id]; exact h
      have h4 : charSetHp id hp c = { c with hp := hp } := by
        unfold charSetHp
        rw [if_pos h]
      simp only [charFindById, charUpdateHp, List.map_cons, List.find?_cons, h3, h4, h]
      rfl

/-- The hp update does not change a lookup of a different id. -/
theorem charFindById_update_ne (chars : List Character) (id id' : String) (hp : Int)
    (hne : id' ≠ id) :
    charFindById (charUpdateHp chars id hp) id' = charFindById chars id' := by
  induction chars with
  | nil => rfl
  | cons c t ih =>
    cases h : (c.id == id')
    · have h3 : ((charSetHp id hp c).id == id') = false := by rw [charSetHp_id]; exact h
      simp only [charFindById, charUpdateHp, List.map_cons, List.find?_cons, h3, h] at *
      exact ih
    · have hcc : c.id = id' := by simpa [beq_iff_eq] using h
      have h4 : charSetHp id hp c = c := by
        unfold charSetHp
        rw [if_neg (by simp only [beq_iff_eq]; exact fun h5 => hne (hcc.symm.trans h5))]
      simp only [charFindById, charUpdateHp, List.map_cons, List.find?_cons, h4, h]

/-- The character-store component of endEncounterSync is syncChars. -/
theorem endEncounterSync_fst (chars : List Character) (parts : List Participant) :
    (endEncounterSync chars parts).1 = syncChars chars parts := by
  suffices h : ∀ (acc2 : List SyncResult),
      (parts.foldl
        (fun acc p =>
          match charFindById acc.1 p.id with
          | some _ => (charUpdateHp acc.1 p.id p.hp, acc.2 ++ [⟨p.id, p.name, p.hp, true⟩])
          | none => (acc.1, acc.2 ++ [⟨p.id, p.name, p.hp, false⟩]))
        (chars, acc2)).1 = syncChars chars parts by
    exact h []
  induction parts generalizing chars with
  | nil => intro acc2; rfl
  | cons p rest ih =>
    intro acc2
    cases hf : charFindById chars p.id <;>
      simp only [List.foldl_cons, syncChars, hf, Option.isSome_some, Option.isSome_none,
        if_true, if_false, Bool.false_eq_true] <;>
      exact ih _ _
/-- One step of syncChars. -/
theorem syncChars_cons (chars : List Character) (p : Participant)
    (rest : List Participant) :
    syncChars chars (p :: rest) =
      syncChars
        (if (charFindById chars p.id).isSome then charUpdateHp chars p.id p.hp
         else chars) rest := rfl

/-- syncChars keeps the list of character ids. -/
theorem syncChars_map_id (parts : List Participant) (chars : List Character) :
    (syncChars chars parts).map (·.id) = chars.map (·.id) := by
  induction parts generalizing chars with
  | nil => rfl
  | cons p rest ih =>
    rw [syncChars_cons]
    by_cases hf : (charFindById chars p.id).isSome
    · rw [if_pos hf, ih, charUpdateHp_map_id]
    · rw [if_neg hf, ih]

/-- syncChars does not change a character matched by no participant. -/
theorem syncChars_find_ne (parts : List Participant) (chars : List Character)
    (id : String) (h : ∀ p ∈ parts, p.id ≠ id) :
    charFindById (syncChars chars parts) id = charFindById chars id := by
  induction parts generalizing chars with
  | nil => rfl
  | cons p rest ih =>
    rw [syncChars_cons]
    have hp : p.id ≠ id := h p (List.mem_cons_self p rest)
    have hrest : ∀ q ∈ rest, q.id ≠ id := fun q hq => h q (List.mem_cons_of_mem p hq)
    by_cases hf : (charFindById chars p.id).isSome
    · rw [if_pos hf, ih _ hrest,
        charFindById_update_ne chars p.id id p.hp (Ne.symm hp)]
    · rw [if_neg hf, ih _ hrest]

/-- With distinct participant ids, syncChars writes each participant's
final hp into the character sharing its id, and leaves an id with no
persisted character absent. -/
theorem syncChars_find_mem (parts : List Participant) (p : Participant) :
    ∀ chars, p ∈ parts → (parts.map (·.id)).Nodup →
      charFindById (syncChars chars parts) p.id =
        (charFindById chars p.id).map fun c => { c with hp := p.hp } := by
  induction parts with
  | nil => intro chars hmem _; cases hmem
  | cons q rest ih =>
    intro chars hmem hnd
    rw [syncChars_cons]
    have hnd2 : (rest.map (·.id)).Nodup := (List.nodup_cons.mp hnd).2
    have hq_not : q.id ∉ rest.map (·.id) := (List.nodup_cons.mp hnd).1
    rcases List.mem_cons.mp hmem with hpq | hpr
    · subst hpq
      have hrest : ∀ r ∈ rest, r.id ≠ p.id := by
        intro r hr hEq
        exact hq_not (hEq ▸ List.mem_map_of_mem _ hr)
      rw [syncChars_find_ne rest _ p.id hrest]
      by_cases hf : (charFindById chars p.id).isSome
      · rw [if_pos hf, charFindById_update_self]
      · rw [if_neg hf, Option.not_isSome_iff_eq_none.mp hf]
        rfl
    · have hqp : p.id ≠ q.id := by
        intro hEq
        exact hq_not (hEq ▸ List.mem_map_of_mem _ hpr)
      by_cases hf : (charFindById chars q.id).isSome
      · rw [if_pos hf, ih _ hpr hnd2,
          charFindById_update_ne chars q.id p.id q.hp hqp]
      · rw [if_neg hf, ih _ hpr hnd2]

/-- C1: handleEndEncounter with a cached engine holding final state S
succeeds; afterwards each participant whose id names a persisted character
has that character's hp set to the token's final hp, participants with no
persisted character cause no store mutation, ids not named by any
participant are untouched, and no character row is created or deleted. -/
theorem handleEndEncounter_writeback (s : ServerState) (sessionId encounterId : String)
    (finalState : CombatState)
    (hget : mgrGet s.mgr (sessionId ++ ":" ++ encounterId) = some (some finalState))
    (hids : (finalState.participants.map (·.id)).Nodup) :
    ∃ syncs, handleEndEncounter s sessionId encounterId =
        .ok ({ s with mgr := mgrDelete s.mgr (sessionId ++ ":" ++ encounterId),
                      chars := syncChars s.chars finalState.participants }, syncs) ∧
      (∀ p ∈ finalState.participants,
        charFindById (syncChars s.chars finalState.participants) p.id =
          (charFindById s.chars p.id).map fun c => { c with hp := p.hp }) ∧
      (∀ id, (∀ p ∈ finalState.participants, p.id ≠ id) →
        charFindById (syncChars s.chars finalState.participants) id =
          charFindById s.chars id) ∧
      (syncChars s.chars finalState.participants).map (·.id) = s.chars.map (·.id) := by
  refine ⟨(endEncounterSync s.chars finalState.participants).2, ?_, ?_, ?_, ?_⟩
  · simp only [handleEndEncounter, hget]
    rw [← endEncounterSync_fst]
  · intro p hp
    exact syncChars_find_mem finalState.participants p s.chars hp hids
  · intro id h
    exact syncChars_find_ne finalState.participants s.chars id h
  · exact syncChars_map_id finalState.participants s.chars
/-- C1 witness: ending the cached encounter writes the hero token's 17 hp
into the persisted hero character, while the ad-hoc goblin causes no
store mutation. -/
theorem handleEndEncounter_writeback_witness :
    ∃ syncs, handleEndEncounter exServerState "sess" "enc" =
        .ok ({ exServerState with
                mgr := mgrDelete exServerState.mgr ("sess" ++ ":" ++ "enc"),
                chars := syncChars exServerState.chars exFinalState.participants }, syncs) ∧
      (∀ p ∈ exFinalState.participants,
        charFindById (syncChars exServerState.chars exFinalState.participants) p.id =
          (charFindById exServerState.chars p.id).map fun c => { c with hp := p.hp }) ∧
      (∀ id, (∀ p ∈ exFinalState.participants, p.id ≠ id) →
        charFindById (syncChars exServerState.chars exFinalState.participants) id =
          charFindById exServerState.chars id) ∧
      (syncChars exServerState.chars exFinalState.participants).map (·.id) =
        exServerState.chars.map (·.id) :=
  handleEndEncounter_writeback exServerState "sess" "enc" exFinalState rfl (by decide)

/-- A manager entry just created is found. -/
theorem mgrGet_create_self (m : CombatManager) (k : String) (v : Option CombatState) :
    mgrGet (mgrCreate m k v) k = some v := by
  simp [mgrGet, mgrCreate, List.find?_cons]

/-- A snapshot just saved is loaded back. -/
theorem encLoadState_save_self (db : EncounterStore) (id : String) (st : CombatState) :
    encLoadState (encSaveState db id st) id = some st := by
  simp [encLoadState, encSaveState, List.find?_cons]

/-- C9: with no cached engine but a persisted snapshot, end_encounter
throws not-found and — returning an error — performs no write at all,
while get_encounter_state, execute_combat_action and advance_turn all
auto-load the snapshot into a fresh engine and proceed. -/
theorem endEncounter_requires_cached_engine (s : ServerState)
    (sessionId encounterId targetId : String) (snap : CombatState)
    (attackBonus dc damage d20 : Int)
    (hmem : mgrGet s.mgr (sessionId ++ ":" ++ encounterId) = none)
    (hdb : encLoadState s.encounters encounterId = some snap) :
    handleEndEncounter s sessionId encounterId =
      .error ("Encounter " ++ encounterId ++ " not found.") ∧
    handleGetEncounterState s sessionId encounterId =
      .ok ({ s with mgr := mgrCreate s.mgr (sessionId ++ ":" ++ encounterId) (some snap) },
           snap) ∧
    (∃ s2, handleExecuteCombatAction s sessionId encounterId targetId attackBonus dc damage d20 =
        .ok (s2, (executeAttack snap targetId attackBonus dc damage d20).2) ∧
      mgrGet s2.mgr (sessionId ++ ":" ++ encounterId) =
        some (some (executeAttack snap targetId attackBonus dc damage d20).1) ∧
      encLoadState s2.encounters encounterId =
        some (executeAttack snap targetId attackBonus dc damage d20).1) ∧
    (∃ s3, handleAdvanceTurn s sessionId encounterId = .ok s3 ∧
      mgrGet s3.mgr (sessionId ++ ":" ++ encounterId) = some (some (nextTurn snap)) ∧
      encLoadState s3.encounters encounterId = some (nextTurn snap)) := by
  have hres : resolveEngine s sessionId encounterId =
      .ok ({ s with mgr := mgrCreate s.mgr (sessionId ++ ":" ++ encounterId) (some snap) },
           snap) := by
    simp [resolveEngine, hmem, hdb]
  refine ⟨?_, ?_, ?_, ?_⟩
  · simp [handleEndEncounter, hmem]
  · simp [handleGetEncounterState, hres]
  · refine ⟨{ s with
        mgr := mgrCreate (mgrCreate s.mgr (sessionId ++ ":" ++ encounterId) (some snap))
          (sessionId ++ ":" ++ encounterId)
          (some ((executeAttack snap targetId attackBonus dc damage d20).1)),
        encounters := encSaveState s.encounters encounterId
          ((executeAttack snap targetId attackBonus dc damage d20).1) }, ?_, ?_, ?_⟩
    · simp only [handleExecuteCombatAction, hres]
    · exact mgrGet_create_self _ _ _
    · exact encLoadState_save_self _ _ _
  · refine ⟨{ s with
        mgr := mgrCreate (mgrCreate s.mgr (sessionId ++ ":" ++ encounterId) (some snap))
          (sessionId ++ ":" ++ encounterId) (some (nextTurn snap)),
        encounters := encSaveState s.encounters encounterId (nextTurn snap) }, ?_, ?_, ?_⟩
    · simp only [handleAdvanceTurn, hres]
    · exact mgrGet_create_self _ _ _
    · exact encLoadState_save_self _ _ _

/-- C9 witness: a concrete state with only a persisted snapshot — the
mutating and reading tools auto-load it, end_encounter throws. -/
theorem endEncounter_requires_cached_engine_witness :
    handleEndEncounter exSnapshotOnlyState "sess" "enc" =
      .error ("Encounter " ++ "enc" ++ " not found.") ∧
    handleGetEncounterState exSnapshotOnlyState "sess" "enc" =
      .ok ({ exSnapshotOnlyState with
              mgr := mgrCreate exSnapshotOnlyState.mgr ("sess" ++ ":" ++ "enc")
                (some exFinalState) }, exFinalState) ∧
    (∃ s2, handleExecuteCombatAction exSnapshotOnlyState "sess" "enc" "goblin" 5 12 6 15 =
        .ok (s2, (executeAttack exFinalState "goblin" 5 12 6 15).2) ∧
      mgrGet s2.mgr ("sess" ++ ":" ++ "enc") =
        some (some (executeAttack exFinalState "goblin" 5 12 6 15).1) ∧
      encLoadState s2.encounters "enc" =
        some (executeAttack exFinalState "goblin" 5 12 6 15).1) ∧
    (∃ s3, handleAdvanceTurn exSnapshotOnlyState "sess" "enc" = .ok s3 ∧
      mgrGet s3.mgr ("sess" ++ ":" ++ "enc") = some (some (nextTurn exFinalState)) ∧
      encLoadState s3.encounters "enc" = some (nextTurn exFinalState)) :=
  endEncounter_requires_cached_engine exSnapshotOnlyState "sess" "enc" "goblin"
    exFinalState 5 12 6 15 rfl rfl

/-- clearSlotStep keeps the row's characterId. -/
theorem clearSlotStep_characterId (c s : String) (e : InvEntry) :
    (clearSlotStep c s e).characterId = e.characterId := by
  unfold clearSlotStep; split_ifs <;> rfl

/-- clearSlotStep keeps the row's itemId. -/
theorem clearSlotStep_itemId (c s : String) (e : InvEntry) :
    (clearSlotStep c s e).itemId = e.itemId := by
  unfold clearSlotStep; split_ifs <;> rfl

/-- equipTargetStep keeps the row's characterId. -/
theorem equipTargetStep_characterId (c i s : String) (e : InvEntry) :
    (equipTargetStep c i s e).characterId = e.characterId := by
  unfold equipTargetStep; split_ifs <;> rfl

/-- equipTargetStep keeps the row's itemId. -/
theorem equipTargetStep_itemId (c i s : String) (e : InvEntry) :
    (equipTargetStep c i s e).itemId = e.itemId := by
  unfold equipTargetStep; split_ifs <;> rfl

/-- equipItem keeps the list of row keys. -/
theorem equipItem_keys (db : List InvEntry) (c i s : String) :
    (equipItem db c i s).map (fun e => (e.characterId, e.itemId)) =
      db.map fun e => (e.characterId, e.itemId) := by
  unfold equipItem
  rw [List.map_map, List.map_map]
  apply List.map_eq_map_iff.mpr
  intro e _
  simp only [Function.comp_apply]
  rw [equipTargetStep_characterId, equipTargetStep_itemId,
    clearSlotStep_characterId, clearSlotStep_itemId]

/-- unequipItem keeps the list of row keys. -/
theorem unequipItem_keys (db : List InvEntry) (c i : String) :
    (unequipItem db c i).map (fun e => (e.characterId, e.itemId)) =
      db.map fun e => (e.characterId, e.itemId) := by
  unfold unequipItem
  rw [List.map_map]
  apply List.map_eq_map_iff.mpr
  intro e _
  simp only [Function.comp_apply]
  split_ifs <;> rfl

/-- The three outcomes of the equip pipeline on one row: the target row is
equipped into the slot; a previous occupant of the slot is cleared; any
other row is untouched. -/
theorem equipStep_cases (c i s : String) (e : InvEntry) :
    (e.characterId = c ∧ e.itemId = i ∧
      equipTargetStep c i s (clearSlotStep c s e) =
        { clearSlotStep c s e with equipped := true, slot := some s }) ∨
    (¬(e.characterId = c ∧ e.itemId = i) ∧
      (equipTargetStep c i s (clearSlotStep c s e)).equipped = false ∧
      e.characterId = c ∧ e.slot = some s) ∨
    (¬(e.characterId = c ∧ e.itemId = i) ∧
      equipTargetStep c i s (clearSlotStep c s e) = e ∧
      ¬(e.characterId = c ∧ e.slot = some s)) := by
  by_cases hg : e.characterId = c ∧ e.itemId = i
  · left
    refine ⟨hg.1, hg.2, ?_⟩
    unfold equipTargetStep
    rw [if_pos]
    rw [clearSlotStep_characterId, clearSlotStep_itemId]
    exact hg
  · by_cases hf : e.characterId = c ∧ e.slot = some s
    · right; left
      refine ⟨hg, ?_, hf.1, hf.2⟩
      have h1 : clearSlotStep c s e = { e with equipped := false, slot := none } := by
        unfold clearSlotStep; rw [if_pos hf]
      have h2 : equipTargetStep c i s (clearSlotStep c s e) = clearSlotStep c s e := by
        unfold equipTargetStep
        rw [if_neg]
        rw [clearSlotStep_characterId, clearSlotStep_itemId]
        exact hg
      rw [h2, h1]
    · right; right
      refine ⟨hg, ?_, hf⟩
      have h1 : clearSlotStep c s e = e := by unfold clearSlotStep; rw [if_neg hf]
      have h2 : equipTargetStep c i s (clearSlotStep c s e) = clearSlotStep c s e := by
        unfold equipTargetStep
        rw [if_neg]
        rw [clearSlotStep_characterId, clearSlotStep_itemId]
        exact hg
      rw [h2, h1]

/-- equipItem preserves the slot invariant. -/
theorem SlotInvariant_equipItem (db : List InvEntry) (c i s : String)
    (h : SlotInvariant db) : SlotInvariant (equipItem db c i s) := by
  obtain ⟨hkeys, hslot, huniq⟩ := h
  refine ⟨?_, ?_, ?_⟩
  · rw [equipItem_keys]; exact hkeys
  · intro x hx hxe
    unfold equipItem at hx
    obtain ⟨y, hy, rfl⟩ := List.mem_map.mp hx
    obtain ⟨e, he, rfl⟩ := List.mem_map.mp hy
    rcases equipStep_cases c i s e with ⟨_, _, hEq⟩ | ⟨_, hfalse, _, _⟩ | ⟨_, hEq, _⟩
    · rw [hEq]; simp
    · rw [hfalse] at hxe; cases hxe
    · rw [hEq] at hxe ⊢
      exact hslot e he hxe
  · intro a ha b hb hcc hae hbe hslots
    unfold equipItem at ha hb
    obtain ⟨ya, hya, rfl⟩ := List.mem_map.mp ha
    obtain ⟨ea, hea, rfl⟩ := List.mem_map.mp hya
    obtain ⟨yb, hyb, rfl⟩ := List.mem_map.mp hb
    obtain ⟨eb, heb, rfl⟩ := List.mem_map.mp hyb
    rcases equipStep_cases c i s ea with ⟨hac, hai, haEq⟩ | ⟨_, hafalse, _, _⟩ | ⟨_, haEq, hanot⟩
    · rcases equipStep_cases c i s eb with ⟨hbc, hbi, hbEq⟩ | ⟨_, hbfalse, _, _⟩ | ⟨_, hbEq, hbnot⟩
      · -- both are the newly equipped (c, i) row
        rw [haEq, hbEq]
        show (clearSlotStep c s ea).itemId = (clearSlotStep c s eb).itemId
        rw [clearSlotStep_itemId, clearSlotStep_itemId, hai, hbi]
      · rw [hbfalse] at hbe; cases hbe
      · -- a equipped into slot s, b untouched: b would still occupy slot s
        exfalso
        rw [haEq] at hcc hslots
        rw [hbEq] at hcc hslots
        have h1 : eb.characterId = c := by
          rw [← hcc]
          show (clearSlotStep c s ea).characterId = c
          rw [clearSlotStep_characterId]
          exact hac
        have h2 : eb.slot = some s := by
          rw [← hslots]
        exact hbnot ⟨h1, h2⟩
    · rw [hafalse] at hae; cases hae
    · rcases equipStep_cases c i s eb with ⟨hbc, hbi, hbEq⟩ | ⟨_, hbfalse, _, _⟩ | ⟨_, hbEq, hbnot⟩
      · -- b equipped into slot s, a untouched: a would still occupy slot s
        exfalso
        rw [haEq] at hcc hslots
        rw [hbEq] at hcc hslots
        have h1 : ea.characterId = c := by
          rw [hcc]
          show (clearSlotStep c s eb).characterId = c
          rw [clearSlotStep_characterId]
          exact hbc
        have h2 : ea.slot = some s := by
          rw [hslots]
        exact hanot ⟨h1, h2⟩
      · rw [hbfalse] at hbe; cases hbe
      · rw [haEq] at hcc hae hslots ⊢
        rw [hbEq] at hcc hbe hslots ⊢
        exact huniq ea hea eb heb hcc hae hbe hslots

/-- unequipItem preserves the slot invariant. -/
theorem SlotInvariant_unequipItem (db : List InvEntry) (c i : String)
    (h : SlotInvariant db) : SlotInvariant (unequipItem db c i) := by
  obtain ⟨hkeys, hslot, huniq⟩ := h
  have hstep : ∀ e : InvEntry,
      (e.characterId = c ∧ e.itemId = i ∧
        (if e.characterId = c ∧ e.itemId = i then
          ({ e with equipped := false, slot := none } : InvEntry) else e) =
          { e with equipped := false, slot := none }) ∨
      ((if e.characterId = c ∧ e.itemId = i then
          ({ e with equipped := false, slot := none } : InvEntry) else e) = e) := by
    intro e
    by_cases he : e.characterId = c ∧ e.itemId = i
    · left; exact ⟨he.1, he.2, if_pos he⟩
    · right; exact if_neg he
  refine ⟨?_, ?_, ?_⟩
  · rw [unequipItem_keys]; exact hkeys
  · intro x hx hxe
    unfold unequipItem at hx
    obtain ⟨e, he, rfl⟩ := List.mem_map.mp hx
    rcases hstep e with ⟨_, _, hEq⟩ | hEq
    · rw [hEq] at hxe; cases hxe
    · rw [hEq] at hxe ⊢
      exact hslot e he hxe
  · intro a ha b hb hcc hae hbe hslots
    unfold unequipItem at ha hb
    obtain ⟨ea, hea, rfl⟩ := List.mem_map.mp ha
    obtain ⟨eb, heb, rfl⟩ := List.mem_map.mp hb
    rcases hstep ea with ⟨_, _, haEq⟩ | haEq
    · rw [haEq] at hae; cases hae
    · rcases hstep eb with ⟨_, _, hbEq⟩ | hbEq
      · rw [hbEq] at hbe; cases hbe
      · rw [haEq] at hcc hae hslots ⊢
        rw [hbEq] at hcc hbe hslots ⊢
        exact huniq ea hea eb heb hcc hae hbe hslots

/-- Any sequence of equip layer operations preserves the slot invariant. -/
theorem applyInvOps_slotInvariant (ops : List InvOp) :
    ∀ db, SlotInvariant db → SlotInvariant (applyInvOps ops db) := by
  induction ops with
  | nil => intro db h; exact h
  | cons op rest ih =>
    intro db h
    cases op with
    | equip c i s => exact ih _ (SlotInvariant_equipItem db c i s h)
    | unequip c i => exact ih _ (SlotInvariant_unequipItem db c i h)

/-- A table whose keys are distinct and with nothing equipped satisfies
the slot invariant. -/
theorem SlotInvariant_of_fresh (db : List InvEntry)
    (hk : (db.map fun e => (e.characterId, e.itemId)).Nodup)
    (hfresh : ∀ e ∈ db, e.equipped = false) : SlotInvariant db := by
  refine ⟨hk, ?_, ?_⟩
  · intro e he hxe
    rw [hfresh e he] at hxe; cases hxe
  · intro a ha b hb _ hae _ _
    rw [hfresh a ha] at hae; cases hae

/-- C8: after any sequence of equipItem and unequipItem operations from a
state satisfying the slot invariant — and in particular from any table
whose rows are key-distinct and all unequipped, the state of a table built
by plain inserts — every equipped row names a slot and no two equipped
rows of one character share a slot. -/
theorem equip_slot_invariant (ops : List InvOp) (db : List InvEntry) :
    (SlotInvariant db → SlotInvariant (applyInvOps ops db)) ∧
    ((db.map fun e => (e.characterId, e.itemId)).Nodup →
      (∀ e ∈ db, e.equipped = false) → SlotInvariant (applyInvOps ops db)) :=
  ⟨fun h => applyInvOps_slotInvariant ops db h,
   fun hk hf => applyInvOps_slotInvariant ops db (SlotInvariant_of_fresh db hk hf)⟩

/-- C8 witness: equipping two items into the same slot and unequipping
another on a concrete table keeps the invariant. -/
theorem equip_slot_invariant_witness :
    SlotInvariant (applyInvOps
      [.equip "A" "sword" "hand", .equip "A" "shield" "hand", .unequip "B" "sword"]
      exInvDb) :=
  (equip_slot_invariant
    [.equip "A" "sword" "hand", .equip "A" "shield" "hand", .unequip "B" "sword"]
    exInvDb).1 (by decide)

end RpgMcp
